import Mathlib

/-!
# StellarStream token-streaming contract: shallow embedding and verification

This file embeds the core of the StellarStream Soroban contract
(`src/contracts/src/lib.rs`, `math.rs`, `interest.rs`, `oracle.rs`,
`types.rs`, `errors.rs`) in Lean 4 and proves/refutes the specification
claims about it.

Modeling conventions:
* Rust `i128` values are modeled as `Int`.  Rust's `checked_mul` is modeled
  by `checkedMul`, which returns `none` exactly when the mathematical
  product leaves the `i128` range.  Unchecked `i128` arithmetic is modeled
  exactly (the Soroban build traps on overflow rather than wrapping, so no
  wrapped value is ever observable; theorems about returned values are
  therefore stated over the exact integers).
* Rust `u64` timestamps and `u32` values are modeled as `Int` (percentages
  as `Nat`), with non-negativity hypotheses added where a theorem needs
  them.  `u64` subtraction `a - b` is modeled as integer subtraction; in
  every code path that matters the subsequent `<= 0` guard makes the
  negative case agree with the source's behaviour on in-range inputs.
* Rust `i128` division `/` truncates toward zero, so it is modeled by
  `Int.tdiv` (written `rdiv` below), not by Lean's `/` (Euclidean).
  Division by zero panics in Rust; the one reachable place where this
  matters (`top_up_stream`) is modeled with an explicit `panicked` outcome.
* Addresses are modeled as `Nat` identifiers.  External collaborators
  (token transfers, the vault, the oracle) are modeled by explicit
  parameters and by returning the transfer commands the operation demands.
-/

set_option maxRecDepth 10000

namespace StellarStream

/-- Rust `i128` division: truncation toward zero. -/
def rdiv (a b : Int) : Int := Int.tdiv a b

/-- Largest `i128` value. -/
def i128Max : Int := 2 ^ 127 - 1

/-- Smallest `i128` value. -/
def i128Min : Int := -(2 ^ 127)

/-- Rust's `i128::checked_mul`: `none` exactly when the product overflows. -/
def checkedMul (a b : Int) : Option Int :=
  if i128Min ≤ a * b ∧ a * b ≤ i128Max then some (a * b) else none

namespace Math

/-- `math.rs::calculate_unlocked_amount`: linear unlock with floor division. -/
def calculate_unlocked_amount (total_amount start_time end_time current_time : Int) : Int :=
  if current_time < start_time then 0
  else if current_time ≥ end_time then total_amount
  else
    let elapsed_time := current_time - start_time
    let total_duration := end_time - start_time
    rdiv (total_amount * elapsed_time) total_duration

/-- `math.rs::calculate_exponential_unlocked`: quadratic unlock with
checked multiplication; `none` models `Err(())` on `i128` overflow. -/
def calculate_exponential_unlocked (total_amount start_time end_time current_time : Int) :
    Option Int :=
  if current_time < start_time then some 0
  else if current_time ≥ end_time then some total_amount
  else
    let elapsed := current_time - start_time
    let duration := end_time - start_time
    match checkedMul elapsed elapsed with
    | none => none
    | some elapsed_squared =>
      match checkedMul duration duration with
      | none => none
      | some duration_squared =>
        match checkedMul total_amount elapsed_squared with
        | none => none
        | some numerator => some (rdiv numerator duration_squared)

/-- `math.rs::calculate_unlocked`: linear unlock with a cliff. -/
def calculate_unlocked_cliff (total_amount start cliff end_time now : Int) : Int :=
  if now < cliff then 0
  else if now ≥ end_time then total_amount
  else
    let elapsed := now - start
    let total_duration := end_time - start
    rdiv (total_amount * elapsed) total_duration

end Math

namespace Oracle

/-- `oracle.rs::get_price`: the oracle's raw reply is `(price, timestamp)`;
the staleness and positivity checks are the contract's own. `none` models
`Err(())`. -/
def get_price (current_time : Int) (oracle_reply : Int × Int) (max_staleness : Int) :
    Option Int :=
  let price := oracle_reply.1
  let timestamp := oracle_reply.2
  if current_time - timestamp > max_staleness then none
  else if price ≤ 0 then none
  else some price

/-- `oracle.rs::calculate_token_amount`: `usd_amount * 10^7 / price`. -/
def calculate_token_amount (usd_amount price : Int) : Option Int :=
  if price ≤ 0 then none
  else
    match checkedMul usd_amount 10000000 with
    | none => none
    | some numerator => some (rdiv numerator price)

end Oracle

namespace Interest

/-- `types.rs::INTEREST_TO_SENDER`. -/
def INTEREST_TO_SENDER : Nat := 1

/-- `types.rs::INTEREST_TO_RECEIVER`. -/
def INTEREST_TO_RECEIVER : Nat := 2

/-- `types.rs::INTEREST_TO_PROTOCOL`. -/
def INTEREST_TO_PROTOCOL : Nat := 4

/-- `types.rs::InterestDistribution`. -/
structure InterestDistribution where
  to_sender : Int
  to_receiver : Int
  to_protocol : Int
  total_interest : Int
  deriving Repr, DecidableEq

/-- `interest.rs::calculate_interest_distribution`. The `u32` strategy mask
is modeled as `Nat`; `&` is `Nat.land` (written `&&&`). -/
def calculate_interest_distribution (total_interest : Int) (strategy : Nat) :
    InterestDistribution :=
  if total_interest ≤ 0 then
    { to_sender := 0, to_receiver := 0, to_protocol := 0, total_interest := 0 }
  else
    let p :=
      if strategy = INTEREST_TO_SENDER then (total_interest, (0 : Int), (0 : Int))
      else if strategy = INTEREST_TO_RECEIVER then (0, total_interest, 0)
      else if strategy = INTEREST_TO_PROTOCOL then (0, 0, total_interest)
      else if strategy = 3 then
        let half := rdiv total_interest 2
        let remainder := total_interest - half * 2
        (half + remainder, half, 0)
      else if strategy = 7 then
        let third := rdiv total_interest 3
        let remainder := total_interest - third * 3
        (third + remainder, third, third)
      else
        let sender_bit := strategy &&& INTEREST_TO_SENDER
        let receiver_bit := strategy &&& INTEREST_TO_RECEIVER
        let protocol_bit := strategy &&& INTEREST_TO_PROTOCOL
        let total_bits : Nat := (if sender_bit > 0 then 1 else 0)
          + (if receiver_bit > 0 then 1 else 0) + (if protocol_bit > 0 then 1 else 0)
        if total_bits = 0 then (0, total_interest, 0)
        else
          let share := rdiv total_interest (total_bits : Int)
          let remainder := total_interest - share * (total_bits : Int)
          let to_sender := if sender_bit > 0 then share else 0
          let to_receiver := if receiver_bit > 0 then share else 0
          let to_protocol := if protocol_bit > 0 then share else 0
          if sender_bit > 0 then (to_sender + remainder, to_receiver, to_protocol)
          else if receiver_bit > 0 then (to_sender, to_receiver + remainder, to_protocol)
          else (to_sender, to_receiver, to_protocol + remainder)
    { to_sender := p.1, to_receiver := p.2.1, to_protocol := p.2.2,
      total_interest := total_interest }

end Interest

/-- Addresses are abstract identifiers. -/
abbrev Address := Nat

/-- `types.rs::CurveType`. -/
inductive CurveType where
  | Linear
  | Exponential
  deriving Repr, DecidableEq

/-- `types.rs::Milestone` (`timestamp : u64`, `percentage : u32`). -/
structure Milestone where
  timestamp : Int
  percentage : Nat
  deriving Repr, DecidableEq

/-- `types.rs::Stream` (the `metadata : Option<BytesN<32>>` field is modeled
as an opaque optional identifier). -/
structure Stream where
  sender : Address
  receiver : Address
  token : Address
  total_amount : Int
  start_time : Int
  end_time : Int
  withdrawn : Int
  withdrawn_amount : Int
  cancelled : Bool
  receipt_owner : Address
  is_paused : Bool
  paused_time : Int
  total_paused_duration : Int
  milestones : List Milestone
  curve_type : CurveType
  interest_strategy : Nat
  vault_address : Option Address
  deposited_principal : Int
  metadata : Option Nat
  is_usd_pegged : Bool
  usd_amount : Int
  oracle_address : Address
  oracle_max_staleness : Int
  price_min : Int
  price_max : Int
  is_soulbound : Bool
  clawback_enabled : Bool
  arbiter : Option Address
  is_frozen : Bool
  deriving Repr, DecidableEq

/-- `types.rs::StreamReceipt`. -/
structure StreamReceipt where
  stream_id : Nat
  owner : Address
  minted_at : Int
  deriving Repr, DecidableEq

/-- `errors.rs::Error`, extended with the `StreamEnded`, `StreamFrozen` and
`TokenNotAllowed` variants that `lib.rs` refers to. -/
inductive Error where
  | AlreadyInitialized
  | InvalidTimeRange
  | InvalidAmount
  | StreamNotFound
  | Unauthorized
  | AlreadyCancelled
  | InsufficientBalance
  | ProposalNotFound
  | ProposalExpired
  | AlreadyApproved
  | ProposalAlreadyExecuted
  | InvalidApprovalThreshold
  | NotReceiptOwner
  | StreamPaused
  | OracleStalePrice
  | OracleFailed
  | PriceOutOfBounds
  | FlashLoanNotRepaid
  | FlashLoanInProgress
  | AlreadyExecuted
  | StreamIsSoulbound
  | AddressRestricted
  | StreamEnded
  | StreamFrozen
  | TokenNotAllowed
  deriving Repr, DecidableEq

namespace Contract

/-- `lib.rs::calculate_unlocked` (the lifecycle contract's curve engine:
pause freezing, linear/exponential curves with linear fallback on
exponential overflow, and milestone capping). -/
def calculate_unlocked (stream : Stream) (current_time : Int) : Int :=
  if current_time ≤ stream.start_time then 0
  else
    let effective_time := if stream.is_paused then stream.paused_time else current_time
    let adjusted_end := stream.end_time + stream.total_paused_duration
    if effective_time ≥ adjusted_end then stream.total_amount
    else
      let elapsed := effective_time - stream.start_time
      let paused := stream.total_paused_duration
      let effective_elapsed := elapsed - paused
      if effective_elapsed ≤ 0 then 0
      else
        let duration := stream.end_time - stream.start_time
        let base_unlocked :=
          match stream.curve_type with
          | CurveType.Linear => rdiv (stream.total_amount * effective_elapsed) duration
          | CurveType.Exponential =>
            let adjusted_current := stream.start_time + effective_elapsed
            (Math.calculate_exponential_unlocked stream.total_amount stream.start_time
                stream.end_time adjusted_current).getD
              (rdiv (stream.total_amount * effective_elapsed) duration)
        if stream.milestones.isEmpty then base_unlocked
        else
          let milestone_cap := stream.milestones.foldl
            (fun acc m =>
              if effective_time ≥ m.timestamp then
                let cap := rdiv (stream.total_amount * (m.percentage : Int)) 100
                if cap > acc then cap else acc
              else acc) 0
          if base_unlocked < milestone_cap then base_unlocked else milestone_cap

/-- `lib.rs::calculate_unlocked_usd` (always linear, in USD units). -/
def calculate_unlocked_usd (stream : Stream) (current_time : Int) (total_usd : Int) : Int :=
  if current_time ≤ stream.start_time then 0
  else
    let effective_time := if stream.is_paused then stream.paused_time else current_time
    let adjusted_end := stream.end_time + stream.total_paused_duration
    if effective_time ≥ adjusted_end then total_usd
    else
      let elapsed := effective_time - stream.start_time
      let paused := stream.total_paused_duration
      let effective_elapsed := elapsed - paused
      if effective_elapsed ≤ 0 then 0
      else
        let duration := stream.end_time - stream.start_time
        rdiv (total_usd * effective_elapsed) duration

/-- Result of a successful `withdraw`: the updated stream, the amount
withdrawn, the address the token transfer goes to, and the updated vault
share balance (when the stream is vaulted and had shares). -/
structure WithdrawOk where
  stream : Stream
  amount : Int
  transfer_to : Address
  remaining_shares : Option Int
  deriving Repr, DecidableEq

/-- `lib.rs::withdraw`.  External collaborators are explicit parameters:
`oracle_reply` is the raw `(price, timestamp)` pair the oracle contract
would return, `vault_shares` is the stored `VaultShares(stream_id)` value,
and `vault_ok` tells whether the vault's own withdraw call succeeds (any
failure aborts the whole operation, which Soroban rolls back). -/
def withdraw (receipt : StreamReceipt) (stream : Stream) (caller : Address)
    (current_time : Int) (oracle_reply : Int × Int) (vault_shares : Int)
    (vault_ok : Bool) : Except Error WithdrawOk :=
  if receipt.owner ≠ caller then .error .NotReceiptOwner
  else if stream.cancelled then .error .AlreadyCancelled
  else if stream.is_paused then .error .StreamPaused
  else if stream.is_frozen then .error .StreamFrozen
  else
    let to_withdraw? : Except Error Int :=
      if stream.is_usd_pegged then
        match Oracle.get_price current_time oracle_reply stream.oracle_max_staleness with
        | none => .error .OracleStalePrice
        | some price =>
          if price < stream.price_min ∨ price > stream.price_max then
            .error .PriceOutOfBounds
          else
            let unlocked_usd := Contract.calculate_unlocked_usd stream current_time
              stream.usd_amount
            match Oracle.calculate_token_amount unlocked_usd price with
            | none => .error .InvalidAmount
            | some unlocked_tokens => .ok (unlocked_tokens - stream.withdrawn_amount)
      else
        .ok (Contract.calculate_unlocked stream current_time - stream.withdrawn_amount)
    match to_withdraw? with
    | .error e => .error e
    | .ok to_withdraw =>
      if to_withdraw ≤ 0 then .error .InsufficientBalance
      else
        let stream' := { stream with withdrawn_amount := stream.withdrawn_amount + to_withdraw }
        match stream.vault_address with
        | some _ =>
          if vault_shares > 0 then
            if ¬ vault_ok then .error .InsufficientBalance
            else
              let shares_to_withdraw := rdiv (vault_shares * to_withdraw) stream.total_amount
              .ok { stream := stream', amount := to_withdraw,
                    transfer_to := stream.receiver,
                    remaining_shares := some (vault_shares - shares_to_withdraw) }
          else
            .ok { stream := stream', amount := to_withdraw,
                  transfer_to := stream.receiver, remaining_shares := none }
        | none =>
          .ok { stream := stream', amount := to_withdraw,
                transfer_to := stream.receiver, remaining_shares := none }

/-- Result of a successful `cancel`: the updated stream and the two
settlement transfers (`to_receiver` is sent to the receipt owner,
`to_sender` to the sender). -/
structure CancelOk where
  stream : Stream
  to_receiver : Int
  to_sender : Int
  receiver_transfer_to : Address
  deriving Repr, DecidableEq

/-- `lib.rs::cancel`. -/
def cancel (receipt : StreamReceipt) (stream : Stream) (caller : Address)
    (current_time : Int) (vault_shares : Int) (vault_ok : Bool) :
    Except Error CancelOk :=
  if stream.sender ≠ caller ∧ receipt.owner ≠ caller then .error .Unauthorized
  else if stream.cancelled then .error .AlreadyCancelled
  else
    let unlocked := Contract.calculate_unlocked stream current_time
    let to_receiver := unlocked - stream.withdrawn
    let to_sender := stream.total_amount - unlocked
    let stream' := { stream with cancelled := true, withdrawn := unlocked }
    match stream.vault_address with
    | some _ =>
      if vault_shares > 0 ∧ ¬ vault_ok then .error .InsufficientBalance
      else
        .ok { stream := stream', to_receiver := to_receiver, to_sender := to_sender,
              receiver_transfer_to := receipt.owner }
    | none =>
      .ok { stream := stream', to_receiver := to_receiver, to_sender := to_sender,
            receiver_transfer_to := receipt.owner }

/-- Outcome of `top_up_stream`: Rust division by zero (`amount / flow_rate`
when the flow rate floors to zero) is a panic, not an `Error`. -/
inductive TopUpOutcome where
  | ok (stream : Stream)
  | err (e : Error)
  | panicked
  deriving Repr, DecidableEq

/-- `lib.rs::top_up_stream`.  `end_time.saturating_sub(start_time)` is
modeled by `max … 0`; the `as u64` cast of the extra duration is a
truncation modulo `2^64`. -/
def top_up_stream (stream : Stream) (sender : Address) (amount : Int)
    (current_time : Int) : TopUpOutcome :=
  if amount ≤ 0 then .err .InvalidAmount
  else if stream.sender ≠ sender then .err .Unauthorized
  else if stream.cancelled then .err .AlreadyCancelled
  else if current_time ≥ stream.end_time then .err .StreamEnded
  else
    let total_duration := max (stream.end_time - stream.start_time) 0
    if total_duration = 0 then .panicked
    else
      let flow_rate := rdiv stream.total_amount total_duration
      if flow_rate = 0 then .panicked
      else
        let new_total := stream.total_amount + amount
        let additional_duration := rdiv amount flow_rate
        let new_end_time := stream.end_time + additional_duration % 2 ^ 64
        .ok { stream with total_amount := new_total, end_time := new_end_time }

/-- `lib.rs::pause_stream` (repeat pause is a no-op success). -/
def pause_stream (stream : Stream) (caller : Address) (current_time : Int) :
    Except Error Stream :=
  if stream.sender ≠ caller then .error .Unauthorized
  else if stream.cancelled then .error .AlreadyCancelled
  else if stream.is_paused then .ok stream
  else .ok { stream with is_paused := true, paused_time := current_time }

/-- `lib.rs::unpause_stream` (repeat unpause is a no-op success). -/
def unpause_stream (stream : Stream) (caller : Address) (current_time : Int) :
    Except Error Stream :=
  if stream.sender ≠ caller then .error .Unauthorized
  else if stream.cancelled then .error .AlreadyCancelled
  else if ¬ stream.is_paused then .ok stream
  else
    let pause_duration := current_time - stream.paused_time
    .ok { stream with
          total_paused_duration := stream.total_paused_duration + pause_duration,
          is_paused := false, paused_time := 0 }

/-- `lib.rs::mint_receipt`. -/
def mint_receipt (stream_id : Nat) (owner : Address) (minted_at : Int) : StreamReceipt :=
  { stream_id := stream_id, owner := owner, minted_at := minted_at }

/-- Result of a successful `transfer_receipt`: both the receipt record and
the stream record are rewritten with the new owner in the same step. -/
structure TransferReceiptOk where
  receipt : StreamReceipt
  stream : Stream
  deriving Repr, DecidableEq

/-- `lib.rs::transfer_receipt` (`validate_receiver` is the always-allowing
stub in `lib.rs`). -/
def transfer_receipt (receipt : StreamReceipt) (stream : Stream)
    (from_addr to_addr : Address) : Except Error TransferReceiptOk :=
  if receipt.owner ≠ from_addr then .error .NotReceiptOwner
  else
    .ok { receipt := { receipt with owner := to_addr },
          stream := { stream with receipt_owner := to_addr } }

/-- `lib.rs::transfer_receiver`: the soulbound check comes first, before
authorization and the cancelled check. -/
def transfer_receiver (stream : Stream) (caller new_receiver : Address) :
    Except Error Stream :=
  if stream.is_soulbound then .error .StreamIsSoulbound
  else if stream.sender ≠ caller then .error .Unauthorized
  else if stream.cancelled then .error .AlreadyCancelled
  else .ok { stream with receiver := new_receiver }

/-- `lib.rs::create_stream_with_milestones`, reduced to its record-building
core: validation, then the stream record and its freshly minted receipt.
(The funding transfer and optional vault deposit precede the record write;
their failure aborts the operation before any record exists.) -/
def create_stream_with_milestones (sender receiver token : Address)
    (total_amount start_time end_time : Int) (milestones : List Milestone)
    (curve_type : CurveType) (is_soulbound : Bool) (vault_address : Option Address)
    (current_time : Int) : Except Error (Stream × StreamReceipt) :=
  if start_time ≥ end_time then .error .InvalidTimeRange
  else if total_amount ≤ 0 then .error .InvalidAmount
  else
    let stream : Stream :=
      { sender := sender, receiver := receiver, token := token,
        total_amount := total_amount, start_time := start_time, end_time := end_time,
        withdrawn_amount := 0, interest_strategy := 0, vault_address := vault_address,
        deposited_principal := total_amount, metadata := none, withdrawn := 0,
        cancelled := false, receipt_owner := receiver, is_paused := false,
        paused_time := 0, total_paused_duration := 0, milestones := milestones,
        curve_type := curve_type, is_usd_pegged := false, usd_amount := 0,
        oracle_address := sender, oracle_max_staleness := 0, price_min := 0,
        price_max := 0, is_soulbound := is_soulbound, clawback_enabled := false,
        arbiter := none, is_frozen := false }
    .ok (stream, mint_receipt 0 receiver current_time)

end Contract

/-! ## Verification layer: arithmetic helper lemmas -/

theorem rdiv_eq_ediv {a b : Int} (ha : 0 ≤ a) (hb : 0 ≤ b) : rdiv a b = a / b :=
  Int.tdiv_eq_ediv ha hb

theorem rdiv_nonneg {a b : Int} (ha : 0 ≤ a) (hb : 0 ≤ b) : 0 ≤ rdiv a b := by
  rw [rdiv_eq_ediv ha hb]
  exact Int.ediv_nonneg ha hb

theorem rdiv_le_rdiv {a b c : Int} (hc : 0 < c) (ha : 0 ≤ a) (hab : a ≤ b) :
    rdiv a c ≤ rdiv b c := by
  rw [rdiv_eq_ediv ha hc.le, rdiv_eq_ediv (ha.trans hab) hc.le]
  exact Int.ediv_le_ediv hc hab

theorem rdiv_mul_le {T e d : Int} (hT : 0 ≤ T) (hd : 0 < d) (he : 0 ≤ e) (hed : e ≤ d) :
    rdiv (T * e) d ≤ T := by
  have h1 : rdiv (T * e) d ≤ rdiv (T * d) d :=
    rdiv_le_rdiv hd (mul_nonneg hT he) (mul_le_mul_of_nonneg_left hed hT)
  have h2 : rdiv (T * d) d = T := by
    rw [rdiv_eq_ediv (mul_nonneg hT hd.le) hd.le]
    exact Int.mul_ediv_cancel T hd.ne'
  omega

theorem rdiv_quad_le_linear {T e d : Int} (hT : 0 ≤ T) (hd : 0 < d) (he : 0 ≤ e)
    (hed : e ≤ d) : rdiv (T * (e * e)) (d * d) ≤ rdiv (T * e) d := by
  have ha : 0 ≤ T * e := mul_nonneg hT he
  have h1 : T * (e * e) = T * e * e := by ring
  rw [h1]
  have h2 : rdiv (T * e * e) (d * d) ≤ rdiv (T * e * d) (d * d) :=
    rdiv_le_rdiv (mul_pos hd hd) (mul_nonneg ha he) (mul_le_mul_of_nonneg_left hed ha)
  have h3 : rdiv (T * e * d) (d * d) = rdiv (T * e) d := by
    rw [rdiv_eq_ediv (mul_nonneg ha hd.le) (mul_pos hd hd).le, rdiv_eq_ediv ha hd.le]
    have h4 : T * e * d = d * (T * e) := by ring
    rw [h4, Int.mul_ediv_mul_of_pos (T * e) d hd]
  omega

/-! ## Verification layer: a branch characterization of the curve engine -/

/-- The effective time the curve engine uses: frozen at `paused_time` while
the stream is paused. -/
def effectiveTime (s : Stream) (t : Int) : Int :=
  if s.is_paused then s.paused_time else t

/-- The pause-adjusted elapsed time. -/
def effectiveElapsed (s : Stream) (t : Int) : Int :=
  effectiveTime s t - s.start_time - s.total_paused_duration

/-- The stream's nominal duration. -/
def streamDuration (s : Stream) : Int := s.end_time - s.start_time

/-- The linear curve value at effective elapsed time `e`. -/
def linearBase (s : Stream) (e : Int) : Int :=
  rdiv (s.total_amount * e) (streamDuration s)

/-- The curve value (before milestone capping) at effective elapsed `e`:
linear, or exponential with a linear fallback on overflow. -/
def baseCurve (s : Stream) (e : Int) : Int :=
  match s.curve_type with
  | CurveType.Linear => linearBase s e
  | CurveType.Exponential =>
    (Math.calculate_exponential_unlocked s.total_amount s.start_time s.end_time
        (s.start_time + e)).getD (linearBase s e)

/-- The milestone cap at effective time `eff`: the largest
`total * percentage / 100` among milestones whose timestamp has passed. -/
def milestoneCap (s : Stream) (eff : Int) : Int :=
  s.milestones.foldl
    (fun acc m =>
      if eff ≥ m.timestamp then
        let cap := rdiv (s.total_amount * (m.percentage : Int)) 100
        if cap > acc then cap else acc
      else acc) 0

/-- `calculate_unlocked`, re-expressed through the named pieces above. -/
theorem calculate_unlocked_eq (s : Stream) (t : Int) :
    Contract.calculate_unlocked s t =
      if t ≤ s.start_time then 0
      else if s.end_time + s.total_paused_duration ≤ effectiveTime s t then s.total_amount
      else if effectiveElapsed s t ≤ 0 then 0
      else if s.milestones.isEmpty then baseCurve s (effectiveElapsed s t)
      else
        min (baseCurve s (effectiveElapsed s t)) (milestoneCap s (effectiveTime s t)) := by
  have h0 : Contract.calculate_unlocked s t =
      if t ≤ s.start_time then 0
      else if s.end_time + s.total_paused_duration ≤ effectiveTime s t then s.total_amount
      else if effectiveElapsed s t ≤ 0 then 0
      else if s.milestones.isEmpty then baseCurve s (effectiveElapsed s t)
      else if baseCurve s (effectiveElapsed s t) < milestoneCap s (effectiveTime s t) then
        baseCurve s (effectiveElapsed s t)
      else milestoneCap s (effectiveTime s t) := rfl
  rw [h0, min_def]
  split_ifs <;> omega

/-! ## Verification layer: milestone cap lemmas -/

theorem milestoneCap_fold_ge (s : Stream) (eff : Int) (l : List Milestone) :
    ∀ acc : Int, acc ≤ l.foldl
      (fun acc m =>
        if eff ≥ m.timestamp then
          let cap := rdiv (s.total_amount * (m.percentage : Int)) 100
          if cap > acc then cap else acc
        else acc) acc := by
  induction l with
  | nil => intro acc; exact le_refl acc
  | cons m l ih =>
    intro acc
    refine le_trans ?_ (ih _)
    dsimp only
    split_ifs <;> omega

theorem milestoneCap_nonneg (s : Stream) (eff : Int) : 0 ≤ milestoneCap s eff :=
  milestoneCap_fold_ge s eff s.milestones 0

theorem milestoneCap_fold_mono (s : Stream) {eff1 eff2 : Int} (h : eff1 ≤ eff2)
    (l : List Milestone) :
    ∀ acc1 acc2 : Int, acc1 ≤ acc2 →
      l.foldl
        (fun acc m =>
          if eff1 ≥ m.timestamp then
            let cap := rdiv (s.total_amount * (m.percentage : Int)) 100
            if cap > acc then cap else acc
          else acc) acc1 ≤
      l.foldl
        (fun acc m =>
          if eff2 ≥ m.timestamp then
            let cap := rdiv (s.total_amount * (m.percentage : Int)) 100
            if cap > acc then cap else acc
          else acc) acc2 := by
  induction l with
  | nil => intro acc1 acc2 ha; exact ha
  | cons m l ih =>
    intro acc1 acc2 ha
    refine ih _ _ ?_
    dsimp only
    split_ifs <;> omega

theorem milestoneCap_mono (s : Stream) {eff1 eff2 : Int} (h : eff1 ≤ eff2) :
    milestoneCap s eff1 ≤ milestoneCap s eff2 :=
  milestoneCap_fold_mono s h s.milestones 0 0 (le_refl 0)

/-! ## Verification layer: base curve lemmas -/

/-- The overflow condition of the exponential curve computation. -/
def expOverflow (T e d : Int) : Prop :=
  ¬(i128Min ≤ e * e ∧ e * e ≤ i128Max) ∨ ¬(i128Min ≤ d * d ∧ d * d ≤ i128Max) ∨
    ¬(i128Min ≤ T * (e * e) ∧ T * (e * e) ≤ i128Max)

instance (T e d : Int) : Decidable (expOverflow T e d) := by
  unfold expOverflow; infer_instance

/-- In the strict interior of the window, the exponential curve either
signals overflow (`none`) or returns the exact quadratic floor value. -/
theorem exp_mid (T st en ct : Int) (h1 : st ≤ ct) (h2 : ct < en) :
    Math.calculate_exponential_unlocked T st en ct =
      if expOverflow T (ct - st) (en - st) then none
      else some (rdiv (T * ((ct - st) * (ct - st))) ((en - st) * (en - st))) := by
  unfold Math.calculate_exponential_unlocked checkedMul expOverflow
  rw [if_neg (by omega), if_neg (by omega)]
  dsimp only
  by_cases hA : i128Min ≤ (ct - st) * (ct - st) ∧ (ct - st) * (ct - st) ≤ i128Max
  · by_cases hB : i128Min ≤ (en - st) * (en - st) ∧ (en - st) * (en - st) ≤ i128Max
    · by_cases hC : i128Min ≤ T * ((ct - st) * (ct - st)) ∧
          T * ((ct - st) * (ct - st)) ≤ i128Max
      · rw [if_pos hA, if_pos hB]
        dsimp only
        rw [if_pos hC, if_neg ?_]
        · rintro (h | h | h)
          · exact h hA
          · exact h hB
          · exact h hC
      · rw [if_pos hA, if_pos hB]
        dsimp only
        rw [if_neg hC, if_pos (Or.inr (Or.inr hC))]
    · rw [if_pos hA, if_neg hB, if_pos (Or.inr (Or.inl hB))]
  · rw [if_neg hA, if_pos (Or.inl hA)]

theorem expOverflow_mono {T e1 e2 d : Int} (hT : 0 ≤ T) (he1 : 0 ≤ e1) (h12 : e1 ≤ e2)
    (hov : expOverflow T e1 d) : expOverflow T e2 d := by
  have hsq : e1 * e1 ≤ e2 * e2 := mul_self_le_mul_self he1 h12
  have hsq1 : (0 : Int) ≤ e1 * e1 := mul_self_nonneg e1
  have hmul : T * (e1 * e1) ≤ T * (e2 * e2) := mul_le_mul_of_nonneg_left hsq hT
  have hmul1 : (0 : Int) ≤ T * (e1 * e1) := mul_nonneg hT hsq1
  have hmin : (i128Min : Int) < 0 := by unfold i128Min; norm_num
  unfold expOverflow at hov ⊢
  omega

theorem baseCurve_nonneg (s : Stream) {e : Int} (hT : 0 ≤ s.total_amount)
    (hd : 0 < streamDuration s) (he : 0 < e) (hed : e < streamDuration s) :
    0 ≤ baseCurve s e := by
  have hlin : 0 ≤ linearBase s e :=
    rdiv_nonneg (mul_nonneg hT he.le) hd.le
  unfold baseCurve
  cases s.curve_type with
  | Linear => exact hlin
  | Exponential =>
    rw [exp_mid _ _ _ _ (by omega) (by unfold streamDuration at hed; omega)]
    have he' : s.start_time + e - s.start_time = e := by ring
    split_ifs with hov
    · exact hlin
    · simp only [Option.getD_some, he']
      exact rdiv_nonneg (mul_nonneg hT (mul_self_nonneg e))
        (mul_self_nonneg (s.end_time - s.start_time))

theorem baseCurve_le_total (s : Stream) {e : Int} (hT : 0 ≤ s.total_amount)
    (hd : 0 < streamDuration s) (he : 0 < e) (hed : e < streamDuration s) :
    baseCurve s e ≤ s.total_amount := by
  have hlin : linearBase s e ≤ s.total_amount :=
    rdiv_mul_le hT hd he.le hed.le
  unfold baseCurve
  cases s.curve_type with
  | Linear => exact hlin
  | Exponential =>
    rw [exp_mid _ _ _ _ (by omega) (by unfold streamDuration at hed; omega)]
    have he' : s.start_time + e - s.start_time = e := by ring
    split_ifs with hov
    · exact hlin
    · simp only [Option.getD_some, he']
      have hdd : (0 : Int) < (s.end_time - s.start_time) * (s.end_time - s.start_time) := by
        have := hd; unfold streamDuration at this; exact mul_pos this this
      have hee : e * e ≤ (s.end_time - s.start_time) * (s.end_time - s.start_time) := by
        have := hed; unfold streamDuration at this
        exact mul_self_le_mul_self he.le this.le
      exact rdiv_mul_le hT hdd (mul_self_nonneg e) hee

theorem baseCurve_mono (s : Stream) {e1 e2 : Int} (hT : 0 ≤ s.total_amount)
    (hd : 0 < streamDuration s) (he1 : 0 < e1) (h12 : e1 ≤ e2)
    (he2 : e2 < streamDuration s) : baseCurve s e1 ≤ baseCurve s e2 := by
  have hd' : 0 < s.end_time - s.start_time := hd
  have hlin : linearBase s e1 ≤ linearBase s e2 :=
    rdiv_le_rdiv hd (mul_nonneg hT he1.le) (mul_le_mul_of_nonneg_left h12 hT)
  unfold baseCurve
  cases s.curve_type with
  | Linear => exact hlin
  | Exponential =>
    rw [exp_mid _ _ _ _ (by omega) (by unfold streamDuration at he2; omega),
      exp_mid _ _ _ _ (by omega) (by unfold streamDuration at he2; omega)]
    have hx1 : s.start_time + e1 - s.start_time = e1 := by ring
    have hx2 : s.start_time + e2 - s.start_time = e2 := by ring
    rw [hx1, hx2]
    by_cases hov2 : expOverflow s.total_amount e2 (s.end_time - s.start_time)
    · by_cases hov1 : expOverflow s.total_amount e1 (s.end_time - s.start_time)
      · rw [if_pos hov1, if_pos hov2]
        exact hlin
      · rw [if_neg hov1, if_pos hov2]
        simp only [Option.getD_some]
        calc rdiv (s.total_amount * (e1 * e1))
              ((s.end_time - s.start_time) * (s.end_time - s.start_time)) ≤
            rdiv (s.total_amount * e1) (s.end_time - s.start_time) :=
              rdiv_quad_le_linear hT hd' he1.le (by unfold streamDuration at he2; omega)
          _ ≤ linearBase s e2 := hlin
    · have hov1 : ¬ expOverflow s.total_amount e1 (s.end_time - s.start_time) :=
        fun h => hov2 (expOverflow_mono hT he1.le h12 h)
      rw [if_neg hov1, if_neg hov2]
      simp only [Option.getD_some]
      exact rdiv_le_rdiv (mul_pos hd' hd')
        (mul_nonneg hT (mul_self_nonneg e1))
        (mul_le_mul_of_nonneg_left (mul_self_le_mul_self he1.le h12) hT)

/-! ## Verification layer: bounds and monotonicity of the curve engine -/

theorem calculate_unlocked_bounds (s : Stream) (t : Int) (hT : 0 ≤ s.total_amount)
    (hd : 0 < streamDuration s) (htpd : 0 ≤ s.total_paused_duration) :
    0 ≤ Contract.calculate_unlocked s t ∧
      Contract.calculate_unlocked s t ≤ s.total_amount := by
  rw [calculate_unlocked_eq]
  split_ifs with h1 h2 h3 h4
  · exact ⟨le_refl 0, hT⟩
  · exact ⟨hT, le_refl _⟩
  · exact ⟨le_refl 0, hT⟩
  · have he : 0 < effectiveElapsed s t := by omega
    have hed : effectiveElapsed s t < streamDuration s := by
      simp only [effectiveElapsed, streamDuration] at *
      omega
    exact ⟨baseCurve_nonneg s hT hd he hed, baseCurve_le_total s hT hd he hed⟩
  · have he : 0 < effectiveElapsed s t := by omega
    have hed : effectiveElapsed s t < streamDuration s := by
      simp only [effectiveElapsed, streamDuration] at *
      omega
    constructor
    · exact le_min (baseCurve_nonneg s hT hd he hed) (milestoneCap_nonneg s _)
    · exact le_trans (min_le_left _ _) (baseCurve_le_total s hT hd he hed)

theorem calculate_unlocked_mono (s : Stream) {t1 t2 : Int} (hT : 0 ≤ s.total_amount)
    (hd : 0 < streamDuration s) (htpd : 0 ≤ s.total_paused_duration) (h12 : t1 ≤ t2) :
    Contract.calculate_unlocked s t1 ≤ Contract.calculate_unlocked s t2 := by
  have hb1 := calculate_unlocked_bounds s t1 hT hd htpd
  have hb2 := calculate_unlocked_bounds s t2 hT hd htpd
  by_cases hs1 : t1 ≤ s.start_time
  · have h0 : Contract.calculate_unlocked s t1 = 0 := by
      rw [calculate_unlocked_eq, if_pos hs1]
    omega
  · have hs2 : ¬ t2 ≤ s.start_time := by omega
    cases hp : s.is_paused with
    | true =>
      have het : effectiveTime s t1 = effectiveTime s t2 := by
        simp [effectiveTime, hp]
      have hee : effectiveElapsed s t1 = effectiveElapsed s t2 := by
        simp only [effectiveElapsed, het]
      rw [calculate_unlocked_eq s t1, calculate_unlocked_eq s t2, if_neg hs1, if_neg hs2,
        het, hee]
    | false =>
      have he1 : effectiveTime s t1 = t1 := by simp [effectiveTime, hp]
      have he2 : effectiveTime s t2 = t2 := by simp [effectiveTime, hp]
      by_cases hA2 : s.end_time + s.total_paused_duration ≤ effectiveTime s t2
      · have htot : Contract.calculate_unlocked s t2 = s.total_amount := by
          rw [calculate_unlocked_eq, if_neg hs2, if_pos hA2]
        omega
      · have hA1 : ¬ s.end_time + s.total_paused_duration ≤ effectiveTime s t1 := by
          rw [he1]
          rw [he2] at hA2
          omega
        by_cases hE1 : effectiveElapsed s t1 ≤ 0
        · have h0 : Contract.calculate_unlocked s t1 = 0 := by
            rw [calculate_unlocked_eq, if_neg hs1, if_neg hA1, if_pos hE1]
          omega
        · have hE2 : ¬ effectiveElapsed s t2 ≤ 0 := by
            simp only [effectiveElapsed] at hE1 ⊢
            rw [he1] at hE1
            rw [he2]
            omega
          have hee12 : effectiveElapsed s t1 ≤ effectiveElapsed s t2 := by
            simp only [effectiveElapsed]
            rw [he1, he2]
            omega
          have hedlt : effectiveElapsed s t2 < streamDuration s := by
            simp only [effectiveElapsed, streamDuration]
            rw [he2]
            rw [he2] at hA2
            omega
          rw [calculate_unlocked_eq s t1, calculate_unlocked_eq s t2, if_neg hs1, if_neg hs2,
            if_neg hA1, if_neg hA2, if_neg hE1, if_neg hE2]
          by_cases hm : s.milestones.isEmpty
          · rw [if_pos hm, if_pos hm]
            exact baseCurve_mono s hT hd (by omega) hee12 hedlt
          · rw [if_neg hm, if_neg hm]
            refine min_le_min (baseCurve_mono s hT hd (by omega) hee12 hedlt) ?_
            refine milestoneCap_mono s ?_
            rw [he1, he2]
            exact h12

theorem linear_amount_bounds (T st en t : Int) (hT : 0 ≤ T) (hd : st < en) :
    0 ≤ Math.calculate_unlocked_amount T st en t ∧
      Math.calculate_unlocked_amount T st en t ≤ T := by
  unfold Math.calculate_unlocked_amount
  split_ifs with h1 h2
  · exact ⟨le_refl 0, hT⟩
  · exact ⟨hT, le_refl T⟩
  · dsimp only
    constructor
    · exact rdiv_nonneg (mul_nonneg hT (by omega)) (by omega)
    · exact rdiv_mul_le hT (by omega) (by omega) (by omega)

theorem linear_amount_mono (T st en : Int) {t1 t2 : Int} (hT : 0 ≤ T) (hd : st < en)
    (h12 : t1 ≤ t2) :
    Math.calculate_unlocked_amount T st en t1 ≤ Math.calculate_unlocked_amount T st en t2 := by
  have hb1 := linear_amount_bounds T st en t1 hT hd
  have hb2 := linear_amount_bounds T st en t2 hT hd
  by_cases h1 : t1 < st
  · have h0 : Math.calculate_unlocked_amount T st en t1 = 0 := by
      unfold Math.calculate_unlocked_amount
      rw [if_pos h1]
    omega
  · by_cases h2 : t2 ≥ en
    · have h0 : Math.calculate_unlocked_amount T st en t2 = T := by
        unfold Math.calculate_unlocked_amount
        rw [if_neg (by omega), if_pos h2]
      omega
    · have e1 : Math.calculate_unlocked_amount T st en t1 =
          rdiv (T * (t1 - st)) (en - st) := by
        unfold Math.calculate_unlocked_amount
        rw [if_neg h1, if_neg (by omega)]
      have e2 : Math.calculate_unlocked_amount T st en t2 =
          rdiv (T * (t2 - st)) (en - st) := by
        unfold Math.calculate_unlocked_amount
        rw [if_neg (by omega), if_neg h2]
      rw [e1, e2]
      exact rdiv_le_rdiv (by omega) (mul_nonneg hT (by omega))
        (mul_le_mul_of_nonneg_left (by omega) hT)

theorem cliff_bounds (T st cl en t : Int) (hT : 0 ≤ T) (hsc : st ≤ cl) (hce : cl < en) :
    0 ≤ Math.calculate_unlocked_cliff T st cl en t ∧
      Math.calculate_unlocked_cliff T st cl en t ≤ T := by
  unfold Math.calculate_unlocked_cliff
  split_ifs with h1 h2
  · exact ⟨le_refl 0, hT⟩
  · exact ⟨hT, le_refl T⟩
  · dsimp only
    constructor
    · exact rdiv_nonneg (mul_nonneg hT (by omega)) (by omega)
    · exact rdiv_mul_le hT (by omega) (by omega) (by omega)

theorem cliff_mono (T st cl en : Int) {t1 t2 : Int} (hT : 0 ≤ T) (hsc : st ≤ cl)
    (hce : cl < en) (h12 : t1 ≤ t2) :
    Math.calculate_unlocked_cliff T st cl en t1 ≤
      Math.calculate_unlocked_cliff T st cl en t2 := by
  have hb1 := cliff_bounds T st cl en t1 hT hsc hce
  have hb2 := cliff_bounds T st cl en t2 hT hsc hce
  by_cases h1 : t1 < cl
  · have h0 : Math.calculate_unlocked_cliff T st cl en t1 = 0 := by
      unfold Math.calculate_unlocked_cliff
      rw [if_pos h1]
    omega
  · by_cases h2 : t2 ≥ en
    · have h0 : Math.calculate_unlocked_cliff T st cl en t2 = T := by
        unfold Math.calculate_unlocked_cliff
        rw [if_neg (by omega), if_pos h2]
      omega
    · have e1 : Math.calculate_unlocked_cliff T st cl en t1 =
          rdiv (T * (t1 - st)) (en - st) := by
        unfold Math.calculate_unlocked_cliff
        rw [if_neg h1, if_neg (by omega)]
      have e2 : Math.calculate_unlocked_cliff T st cl en t2 =
          rdiv (T * (t2 - st)) (en - st) := by
        unfold Math.calculate_unlocked_cliff
        rw [if_neg (by omega), if_neg h2]
      rw [e1, e2]
      exact rdiv_le_rdiv (by omega) (mul_nonneg hT (by omega))
        (mul_le_mul_of_nonneg_left (by omega) hT)

/-! ## Verification layer: inversion lemmas for the lifecycle operations -/

theorem withdraw_ok_shape (receipt : StreamReceipt) (s : Stream) (caller : Address)
    (t : Int) (oracle_reply : Int × Int) (vs : Int) (vo : Bool) (res : Contract.WithdrawOk)
    (h : Contract.withdraw receipt s caller t oracle_reply vs vo = .ok res) :
    res.stream = { s with withdrawn_amount := s.withdrawn_amount + res.amount } ∧
    res.transfer_to = s.receiver ∧ receipt.owner = caller ∧ s.cancelled = false ∧
    s.is_paused = false ∧ s.is_frozen = false ∧ 0 < res.amount ∧
    (s.is_usd_pegged = false →
      res.amount = Contract.calculate_unlocked s t - s.withdrawn_amount) := by
  unfold Contract.withdraw at h
  by_cases h1 : receipt.owner ≠ caller
  · rw [if_pos h1] at h; cases h
  rw [if_neg h1] at h
  by_cases h2 : s.cancelled = true
  · rw [if_pos h2] at h; cases h
  rw [if_neg h2] at h
  by_cases h3 : s.is_paused = true
  · rw [if_pos h3] at h; cases h
  rw [if_neg h3] at h
  by_cases h4 : s.is_frozen = true
  · rw [if_pos h4] at h; cases h
  rw [if_neg h4] at h
  have hrest : ∀ tw : Int,
      (if tw ≤ 0 then (Except.error Error.InsufficientBalance : Except Error Contract.WithdrawOk)
       else
         match s.vault_address with
         | some _ =>
           if vs > 0 then
             if ¬ vo then Except.error Error.InsufficientBalance
             else
               Except.ok
                 { stream := { s with withdrawn_amount := s.withdrawn_amount + tw },
                   amount := tw, transfer_to := s.receiver,
                   remaining_shares := some (vs - rdiv (vs * tw) s.total_amount) }
           else
             Except.ok
               { stream := { s with withdrawn_amount := s.withdrawn_amount + tw },
                 amount := tw, transfer_to := s.receiver, remaining_shares := none }
         | none =>
           Except.ok
             { stream := { s with withdrawn_amount := s.withdrawn_amount + tw },
               amount := tw, transfer_to := s.receiver, remaining_shares := none }) =
        Except.ok res →
      res.stream = { s with withdrawn_amount := s.withdrawn_amount + res.amount } ∧
      res.transfer_to = s.receiver ∧ 0 < res.amount ∧ res.amount = tw := by
    intro tw hw
    by_cases h6 : tw ≤ 0
    · rw [if_pos h6] at hw; cases hw
    rw [if_neg h6] at hw
    cases hva : s.vault_address with
    | none =>
      rw [hva] at hw
      cases hw
      exact ⟨rfl, rfl, by dsimp only; omega, rfl⟩
    | some v =>
      rw [hva] at hw
      by_cases h7 : vs > 0
      · rw [if_pos h7] at hw
        by_cases h8 : ¬ vo
        · rw [if_pos h8] at hw; cases hw
        · rw [if_neg h8] at hw; cases hw; exact ⟨rfl, rfl, by dsimp only; omega, rfl⟩
      · rw [if_neg h7] at hw; cases hw; exact ⟨rfl, rfl, by dsimp only; omega, rfl⟩
  by_cases husd : s.is_usd_pegged = true
  · rw [if_pos husd] at h
    dsimp only at h
    cases hgp : Oracle.get_price t oracle_reply s.oracle_max_staleness with
    | none => rw [hgp] at h; cases h
    | some price =>
      rw [hgp] at h
      dsimp only at h
      by_cases h5 : price < s.price_min ∨ price > s.price_max
      · rw [if_pos h5] at h; cases h
      rw [if_neg h5] at h
      cases hct : Oracle.calculate_token_amount
          (Contract.calculate_unlocked_usd s t s.usd_amount) price with
      | none => rw [hct] at h; cases h
      | some tok =>
        rw [hct] at h
        obtain ⟨hs, htr, hpos, _⟩ := hrest (tok - s.withdrawn_amount) h
        refine ⟨hs, htr, not_ne_iff.mp h1, by simpa using h2, by simpa using h3,
          by simpa using h4, hpos, fun hf => ?_⟩
        rw [hf] at husd; cases husd
  · rw [if_neg husd] at h
    dsimp only at h
    obtain ⟨hs, htr, hpos, htw⟩ :=
      hrest (Contract.calculate_unlocked s t - s.withdrawn_amount) h
    exact ⟨hs, htr, not_ne_iff.mp h1, by simpa using h2, by simpa using h3,
      by simpa using h4, hpos, fun _ => htw⟩

theorem cancel_ok_shape (receipt : StreamReceipt) (s : Stream) (caller : Address)
    (t : Int) (vs : Int) (vo : Bool) (res : Contract.CancelOk)
    (h : Contract.cancel receipt s caller t vs vo = .ok res) :
    res.stream = { s with cancelled := true,
                          withdrawn := Contract.calculate_unlocked s t } ∧
    res.to_receiver = Contract.calculate_unlocked s t - s.withdrawn ∧
    res.to_sender = s.total_amount - Contract.calculate_unlocked s t ∧
    res.receiver_transfer_to = receipt.owner ∧ s.cancelled = false := by
  unfold Contract.cancel at h
  by_cases h1 : s.sender ≠ caller ∧ receipt.owner ≠ caller
  · rw [if_pos h1] at h; cases h
  rw [if_neg h1] at h
  by_cases h2 : s.cancelled = true
  · rw [if_pos h2] at h; cases h
  rw [if_neg h2] at h
  dsimp only at h
  cases hva : s.vault_address with
  | none =>
    rw [hva] at h
    cases h
    exact ⟨rfl, rfl, rfl, rfl, by simpa using h2⟩
  | some v =>
    rw [hva] at h
    by_cases h3 : vs > 0 ∧ ¬ vo
    · rw [if_pos h3] at h; cases h
    · rw [if_neg h3] at h
      cases h
      exact ⟨rfl, rfl, rfl, rfl, by simpa using h2⟩

theorem top_up_ok_shape (s : Stream) (sender : Address) (amount t : Int) (s' : Stream)
    (h : Contract.top_up_stream s sender amount t = .ok s') :
    s' = { s with
           total_amount := s.total_amount + amount,
           end_time := s.end_time +
             rdiv amount (rdiv s.total_amount (max (s.end_time - s.start_time) 0)) % 2 ^ 64 } ∧
    0 < amount ∧ s.sender = sender ∧ s.cancelled = false ∧ t < s.end_time ∧
    rdiv s.total_amount (max (s.end_time - s.start_time) 0) ≠ 0 := by
  unfold Contract.top_up_stream at h
  by_cases h1 : amount ≤ 0
  · rw [if_pos h1] at h; cases h
  rw [if_neg h1] at h
  by_cases h2 : s.sender ≠ sender
  · rw [if_pos h2] at h; cases h
  rw [if_neg h2] at h
  by_cases h3 : s.cancelled = true
  · rw [if_pos h3] at h; cases h
  rw [if_neg h3] at h
  by_cases h4 : t ≥ s.end_time
  · rw [if_pos h4] at h; cases h
  rw [if_neg h4] at h
  dsimp only at h
  by_cases h5 : max (s.end_time - s.start_time) 0 = 0
  · rw [if_pos h5] at h; cases h
  rw [if_neg h5] at h
  by_cases h6 : rdiv s.total_amount (max (s.end_time - s.start_time) 0) = 0
  · rw [if_pos h6] at h; cases h
  rw [if_neg h6] at h
  cases h
  exact ⟨rfl, by omega, not_ne_iff.mp h2, by simpa using h3, by omega, h6⟩

theorem pause_ok_shape (s : Stream) (caller : Address) (t : Int) (s' : Stream)
    (h : Contract.pause_stream s caller t = .ok s') :
    (s.is_paused = true → s' = s) ∧
    (s.is_paused = false → s' = { s with is_paused := true, paused_time := t }) ∧
    s.sender = caller ∧ s.cancelled = false := by
  unfold Contract.pause_stream at h
  by_cases h1 : s.sender ≠ caller
  · rw [if_pos h1] at h; cases h
  rw [if_neg h1] at h
  by_cases h2 : s.cancelled = true
  · rw [if_pos h2] at h; cases h
  rw [if_neg h2] at h
  by_cases h3 : s.is_paused = true
  · rw [if_pos h3] at h
    cases h
    exact ⟨fun _ => rfl, fun hf => (by rw [hf] at h3; cases h3),
      not_ne_iff.mp h1, by simpa using h2⟩
  · rw [if_neg h3] at h
    cases h
    exact ⟨fun ht => (by rw [ht] at h3; exact absurd rfl h3), fun _ => rfl,
      not_ne_iff.mp h1, by simpa using h2⟩

theorem unpause_ok_shape (s : Stream) (caller : Address) (t : Int) (s' : Stream)
    (h : Contract.unpause_stream s caller t = .ok s') :
    (s.is_paused = false → s' = s) ∧
    (s.is_paused = true →
      s' = { s with
             total_paused_duration := s.total_paused_duration + (t - s.paused_time),
             is_paused := false, paused_time := 0 }) ∧
    s.sender = caller ∧ s.cancelled = false := by
  unfold Contract.unpause_stream at h
  by_cases h1 : s.sender ≠ caller
  · rw [if_pos h1] at h; cases h
  rw [if_neg h1] at h
  by_cases h2 : s.cancelled = true
  · rw [if_pos h2] at h; cases h
  rw [if_neg h2] at h
  by_cases h3 : ¬ s.is_paused = true
  · rw [if_pos h3] at h
    cases h
    exact ⟨fun _ => rfl, fun ht => absurd ht h3, not_ne_iff.mp h1, by simpa using h2⟩
  · rw [if_neg h3] at h
    dsimp only at h
    cases h
    exact ⟨fun hf => (by simp [hf] at h3), fun _ => rfl,
      not_ne_iff.mp h1, by simpa using h2⟩

theorem transfer_receipt_ok_shape (receipt : StreamReceipt) (s : Stream)
    (from_addr to_addr : Address) (z : Contract.TransferReceiptOk)
    (h : Contract.transfer_receipt receipt s from_addr to_addr = .ok z) :
    z.receipt = { receipt with owner := to_addr } ∧
    z.stream = { s with receipt_owner := to_addr } ∧ receipt.owner = from_addr := by
  unfold Contract.transfer_receipt at h
  by_cases h1 : receipt.owner ≠ from_addr
  · rw [if_pos h1] at h; cases h
  rw [if_neg h1] at h
  cases h
  exact ⟨rfl, rfl, not_ne_iff.mp h1⟩

theorem transfer_receiver_ok_shape (s : Stream) (caller new_receiver : Address) (s' : Stream)
    (h : Contract.transfer_receiver s caller new_receiver = .ok s') :
    s' = { s with receiver := new_receiver } ∧ s.is_soulbound = false ∧
    s.sender = caller ∧ s.cancelled = false := by
  unfold Contract.transfer_receiver at h
  by_cases h1 : s.is_soulbound = true
  · rw [if_pos h1] at h; cases h
  rw [if_neg h1] at h
  by_cases h2 : s.sender ≠ caller
  · rw [if_pos h2] at h; cases h
  rw [if_neg h2] at h
  by_cases h3 : s.cancelled = true
  · rw [if_pos h3] at h; cases h
  rw [if_neg h3] at h
  cases h
  exact ⟨rfl, by simpa using h1, not_ne_iff.mp h2, by simpa using h3⟩

theorem create_ok_shape (sender receiver token : Address) (total st en : Int)
    (ms : List Milestone) (ct : CurveType) (sb : Bool) (va : Option Address)
    (now : Int) (s : Stream) (r : StreamReceipt)
    (h : Contract.create_stream_with_milestones sender receiver token total st en ms ct sb
      va now = .ok (s, r)) :
    s.receipt_owner = receiver ∧ r.owner = receiver ∧ s.withdrawn = 0 ∧
    s.withdrawn_amount = 0 ∧ s.cancelled = false ∧ s.total_amount = total ∧
    st < en ∧ 0 < total := by
  unfold Contract.create_stream_with_milestones Contract.mint_receipt at h
  by_cases h1 : st ≥ en
  · rw [if_pos h1] at h; cases h
  rw [if_neg h1] at h
  by_cases h2 : total ≤ 0
  · rw [if_pos h2] at h; cases h
  rw [if_neg h2] at h
  dsimp only at h
  cases h
  exact ⟨rfl, rfl, rfl, rfl, rfl, rfl, by omega, by omega⟩

/-! ## Verification layer: the interest distribution against its spec -/

/-- The interest split as the specification words it: split evenly among
the set bits of the mask, remainder to the first enabled party in
sender > receiver > protocol priority, and everything to the receiver when
no recognized bit is set. -/
def interest_spec_triple (total_interest : Int) (strategy : Nat) : Int × Int × Int :=
  let sender_enabled := strategy &&& 1 > 0
  let receiver_enabled := strategy &&& 2 > 0
  let protocol_enabled := strategy &&& 4 > 0
  let n : Nat := (if sender_enabled then 1 else 0) + (if receiver_enabled then 1 else 0)
    + (if protocol_enabled then 1 else 0)
  if n = 0 then (0, total_interest, 0)
  else
    let share := rdiv total_interest (n : Int)
    let remainder := total_interest - share * (n : Int)
    let ts := if sender_enabled then share else 0
    let tr := if receiver_enabled then share else 0
    let tp := if protocol_enabled then share else 0
    if sender_enabled then (ts + remainder, tr, tp)
    else if receiver_enabled then (ts, tr + remainder, tp)
    else (ts, tr, tp + remainder)

theorem interest_land_facts :
    ((1:Nat) &&& 1 = 1) ∧ ((1:Nat) &&& 2 = 0) ∧ ((1:Nat) &&& 4 = 0) ∧
    ((2:Nat) &&& 1 = 0) ∧ ((2:Nat) &&& 2 = 2) ∧ ((2:Nat) &&& 4 = 0) ∧
    ((3:Nat) &&& 1 = 1) ∧ ((3:Nat) &&& 2 = 2) ∧ ((3:Nat) &&& 4 = 0) ∧
    ((4:Nat) &&& 1 = 0) ∧ ((4:Nat) &&& 2 = 0) ∧ ((4:Nat) &&& 4 = 4) ∧
    ((7:Nat) &&& 1 = 1) ∧ ((7:Nat) &&& 2 = 2) ∧ ((7:Nat) &&& 4 = 4) :=
  ⟨rfl, rfl, rfl, rfl, rfl, rfl, rfl, rfl, rfl, rfl, rfl, rfl, rfl, rfl, rfl⟩

theorem interest_eq_spec (t : Int) (m : Nat) (ht0 : ¬ t ≤ 0) :
    ((Interest.calculate_interest_distribution t m).to_sender,
      (Interest.calculate_interest_distribution t m).to_receiver,
      (Interest.calculate_interest_distribution t m).to_protocol) =
      interest_spec_triple t m := by
  unfold Interest.calculate_interest_distribution
  rw [if_neg ht0]
  by_cases h1 : m = 1
  · subst h1
    simp [interest_spec_triple, Interest.INTEREST_TO_SENDER, rdiv, Int.tdiv_one,
      interest_land_facts.1, interest_land_facts.2.1, interest_land_facts.2.2.1]
  · by_cases h2 : m = 2
    · subst h2
      simp [interest_spec_triple, Interest.INTEREST_TO_SENDER, Interest.INTEREST_TO_RECEIVER,
        rdiv, Int.tdiv_one, interest_land_facts.2.2.2.1, interest_land_facts.2.2.2.2.1,
        interest_land_facts.2.2.2.2.2.1]
    · by_cases h4 : m = 4
      · subst h4
        simp [interest_spec_triple, Interest.INTEREST_TO_SENDER,
          Interest.INTEREST_TO_RECEIVER, Interest.INTEREST_TO_PROTOCOL, rdiv, Int.tdiv_one,
          interest_land_facts.2.2.2.2.2.2.2.2.2.1,
          interest_land_facts.2.2.2.2.2.2.2.2.2.2.1,
          interest_land_facts.2.2.2.2.2.2.2.2.2.2.2.1]
      · by_cases h3 : m = 3
        · subst h3
          simp [interest_spec_triple, Interest.INTEREST_TO_SENDER,
            Interest.INTEREST_TO_RECEIVER, Interest.INTEREST_TO_PROTOCOL, rdiv,
            interest_land_facts.2.2.2.2.2.2.1, interest_land_facts.2.2.2.2.2.2.2.1,
            interest_land_facts.2.2.2.2.2.2.2.2.1]
        · by_cases h7 : m = 7
          · subst h7
            simp [interest_spec_triple, Interest.INTEREST_TO_SENDER,
              Interest.INTEREST_TO_RECEIVER, Interest.INTEREST_TO_PROTOCOL, rdiv,
              interest_land_facts.2.2.2.2.2.2.2.2.2.2.2.2.1,
              interest_land_facts.2.2.2.2.2.2.2.2.2.2.2.2.2.1,
              interest_land_facts.2.2.2.2.2.2.2.2.2.2.2.2.2.2]
          · dsimp only
            rw [if_neg (by simpa [Interest.INTEREST_TO_SENDER] using h1),
              if_neg (by simpa [Interest.INTEREST_TO_RECEIVER] using h2),
              if_neg (by simpa [Interest.INTEREST_TO_PROTOCOL] using h4),
              if_neg h3, if_neg h7]
            rfl

theorem interest_spec_sum (t : Int) (m : Nat) :
    (interest_spec_triple t m).1 + (interest_spec_triple t m).2.1 +
      (interest_spec_triple t m).2.2 = t := by
  unfold interest_spec_triple
  dsimp only
  by_cases hs : m &&& 1 > 0 <;> by_cases hr : m &&& 2 > 0 <;> by_cases hp : m &&& 4 > 0 <;>
    simp only [hs, hr, hp, if_true, if_false, if_pos, if_neg, not_false_iff] <;>
    (try split_ifs) <;> (try dsimp only) <;> (try push_cast) <;> omega

/-! ## Claims -/

/-- A concrete linear stream used by witnesses: 1000 tokens over `[0, 100]`. -/
def linStream : Stream :=
  { sender := 10, receiver := 20, token := 30, total_amount := 1000,
    start_time := 0, end_time := 100, withdrawn := 0, withdrawn_amount := 0,
    cancelled := false, receipt_owner := 20, is_paused := false, paused_time := 0,
    total_paused_duration := 0, milestones := [], curve_type := .Linear,
    interest_strategy := 0, vault_address := none, deposited_principal := 1000,
    metadata := none, is_usd_pegged := false, usd_amount := 0, oracle_address := 10,
    oracle_max_staleness := 0, price_min := 0, price_max := 0, is_soulbound := false,
    clawback_enabled := false, arbiter := none, is_frozen := false }

/-- The receipt minted for `linStream` (owner = receiver = 20). -/
def linReceipt : StreamReceipt := { stream_id := 0, owner := 20, minted_at := 0 }

/-- C7: for every stream with `total_amount ≥ 0`, `start_time < end_time` and
a non-negative cumulative pause, under every curve configuration (linear or
exponential, milestones or not), the unlocked amount is monotone
non-decreasing in `now` and bounded to `[0, total_amount]`; the standalone
linear helper and the cliff helper of `math.rs` satisfy the same bounds and
monotonicity (the cliff within `[start, end)`). -/
theorem claim_C7_unlocked_monotone_bounded :
    (∀ (s : Stream) (t1 t2 : Int), 0 ≤ s.total_amount → s.start_time < s.end_time →
      0 ≤ s.total_paused_duration →
      (0 ≤ Contract.calculate_unlocked s t1 ∧
        Contract.calculate_unlocked s t1 ≤ s.total_amount) ∧
      (t1 ≤ t2 →
        Contract.calculate_unlocked s t1 ≤ Contract.calculate_unlocked s t2)) ∧
    (∀ T st en t1 t2 : Int, 0 ≤ T → st < en →
      (0 ≤ Math.calculate_unlocked_amount T st en t1 ∧
        Math.calculate_unlocked_amount T st en t1 ≤ T) ∧
      (t1 ≤ t2 → Math.calculate_unlocked_amount T st en t1 ≤
        Math.calculate_unlocked_amount T st en t2)) ∧
    (∀ T st cl en t1 t2 : Int, 0 ≤ T → st ≤ cl → cl < en →
      (0 ≤ Math.calculate_unlocked_cliff T st cl en t1 ∧
        Math.calculate_unlocked_cliff T st cl en t1 ≤ T) ∧
      (t1 ≤ t2 → Math.calculate_unlocked_cliff T st cl en t1 ≤
        Math.calculate_unlocked_cliff T st cl en t2)) := by
  refine ⟨fun s t1 t2 hT hse htpd => ?_, fun T st en t1 t2 hT hd => ?_,
    fun T st cl en t1 t2 hT hsc hce => ?_⟩
  · have hd : 0 < streamDuration s := by unfold streamDuration; omega
    exact ⟨calculate_unlocked_bounds s t1 hT hd htpd,
      fun h12 => calculate_unlocked_mono s hT hd htpd h12⟩
  · exact ⟨linear_amount_bounds T st en t1 hT hd,
      fun h12 => linear_amount_mono T st en hT hd h12⟩
  · exact ⟨cliff_bounds T st cl en t1 hT hsc hce,
      fun h12 => cliff_mono T st cl en hT hsc hce h12⟩

/-- C7 witness: the theorem instantiated on the concrete stream
`linStream` at times 50 and 70. -/
theorem claim_C7_witness :
    (0 ≤ Contract.calculate_unlocked linStream 50 ∧
      Contract.calculate_unlocked linStream 50 ≤ linStream.total_amount) ∧
    Contract.calculate_unlocked linStream 50 ≤ Contract.calculate_unlocked linStream 70 :=
  have h := claim_C7_unlocked_monotone_bounded.1 linStream 50 70 (by decide) (by decide)
    (by decide)
  ⟨h.1, h.2 (by decide)⟩

/-- C8: for every `total_interest ≥ 0` and every strategy mask, the three
outputs of the interest distribution sum to exactly `total_interest`, and
the distribution follows the even-split rule with the remainder going to
the first enabled party in sender > receiver > protocol priority; a mask
with no recognized bit sends everything to the receiver rather than
failing (captured by `interest_spec_triple`). -/
theorem claim_C8_interest_conservation_and_split (total_interest : Int) (strategy : Nat)
    (ht : 0 ≤ total_interest) :
    (Interest.calculate_interest_distribution total_interest strategy).to_sender +
      (Interest.calculate_interest_distribution total_interest strategy).to_receiver +
      (Interest.calculate_interest_distribution total_interest strategy).to_protocol =
      total_interest ∧
    ((Interest.calculate_interest_distribution total_interest strategy).to_sender,
      (Interest.calculate_interest_distribution total_interest strategy).to_receiver,
      (Interest.calculate_interest_distribution total_interest strategy).to_protocol) =
      interest_spec_triple total_interest strategy := by
  by_cases ht0 : total_interest ≤ 0
  · have h0 : total_interest = 0 := le_antisymm ht0 ht
    subst h0
    constructor
    · simp [Interest.calculate_interest_distribution]
    · have hL : Interest.calculate_interest_distribution 0 strategy =
          { to_sender := 0, to_receiver := 0, to_protocol := 0, total_interest := 0 } := by
        simp [Interest.calculate_interest_distribution]
      rw [hL]
      unfold interest_spec_triple
      dsimp only
      split_ifs <;> simp [rdiv, Int.zero_tdiv]
  · have heq := interest_eq_spec total_interest strategy ht0
    have hsum := interest_spec_sum total_interest strategy
    refine ⟨?_, heq⟩
    have h1 := congrArg Prod.fst heq
    have h2 := congrArg (fun p => p.2.1) heq
    have h3 := congrArg (fun p => p.2.2) heq
    dsimp only at h1 h2 h3
    omega

/-- C8 witness: the odd split 1000 with mask 7 gives 334/333/333 and the
empty mask 0 gives everything to the receiver. -/
theorem claim_C8_witness :
    (Interest.calculate_interest_distribution 1000 7).to_sender +
      (Interest.calculate_interest_distribution 1000 7).to_receiver +
      (Interest.calculate_interest_distribution 1000 7).to_protocol = 1000 ∧
    ((Interest.calculate_interest_distribution 1000 7).to_sender,
      (Interest.calculate_interest_distribution 1000 7).to_receiver,
      (Interest.calculate_interest_distribution 1000 7).to_protocol) =
      interest_spec_triple 1000 7 :=
  claim_C8_interest_conservation_and_split 1000 7 (by decide)

/-- C9: on every soulbound stream, `transfer_receiver` fails with the
soulbound-specific error regardless of caller and of every other stream
state (the check precedes the authorization and cancelled checks, so the
error is `StreamIsSoulbound` even for a non-sender caller on a cancelled
stream); no updated stream is produced, so the stream is unchanged. -/
theorem claim_C9_soulbound_blocks_transfer_receiver (s : Stream)
    (caller new_receiver : Address) (h : s.is_soulbound = true) :
    Contract.transfer_receiver s caller new_receiver = .error .StreamIsSoulbound := by
  unfold Contract.transfer_receiver
  rw [if_pos h]

/-- A soulbound, already-cancelled stream whose sender is 10. -/
def soulboundStream : Stream :=
  { linStream with is_soulbound := true, cancelled := true }

/-- C9 witness: a non-sender caller (99) on the cancelled soulbound stream
still gets the soulbound error, not `Unauthorized` or `AlreadyCancelled`. -/
theorem claim_C9_witness :
    Contract.transfer_receiver soulboundStream 99 7 = .error .StreamIsSoulbound :=
  claim_C9_soulbound_blocks_transfer_receiver soulboundStream 99 7 rfl

/-- C10: the receipt's `owner` and the stream's `receipt_owner` stay equal:
stream creation sets both to the receiver when minting the receipt,
`transfer_receipt` rewrites both to the new owner in the same step, and
every other operation (withdraw, cancel, pause, unpause, top-up,
transfer_receiver) leaves the stream's `receipt_owner` field unchanged and
never writes a receipt record at all (mirrored here by those operations
not returning any receipt). -/
theorem claim_C10_receipt_owner_in_sync :
    (∀ (sender receiver token : Address) (total st en : Int) (ms : List Milestone)
      (ct : CurveType) (sb : Bool) (va : Option Address) (now : Int)
      (s : Stream) (r : StreamReceipt),
      Contract.create_stream_with_milestones sender receiver token total st en ms ct sb
        va now = .ok (s, r) →
      r.owner = s.receipt_owner ∧ s.receipt_owner = receiver) ∧
    (∀ (receipt : StreamReceipt) (s : Stream) (from_addr to_addr : Address)
      (z : Contract.TransferReceiptOk),
      Contract.transfer_receipt receipt s from_addr to_addr = .ok z →
      z.receipt.owner = z.stream.receipt_owner) ∧
    (∀ (receipt : StreamReceipt) (s : Stream) (caller : Address) (t : Int)
      (oracle_reply : Int × Int) (vs : Int) (vo : Bool) (res : Contract.WithdrawOk),
      Contract.withdraw receipt s caller t oracle_reply vs vo = .ok res →
      res.stream.receipt_owner = s.receipt_owner) ∧
    (∀ (receipt : StreamReceipt) (s : Stream) (caller : Address) (t vs : Int) (vo : Bool)
      (res : Contract.CancelOk),
      Contract.cancel receipt s caller t vs vo = .ok res →
      res.stream.receipt_owner = s.receipt_owner) ∧
    (∀ (s : Stream) (caller : Address) (t : Int) (s' : Stream),
      Contract.pause_stream s caller t = .ok s' → s'.receipt_owner = s.receipt_owner) ∧
    (∀ (s : Stream) (caller : Address) (t : Int) (s' : Stream),
      Contract.unpause_stream s caller t = .ok s' → s'.receipt_owner = s.receipt_owner) ∧
    (∀ (s : Stream) (sender : Address) (amount t : Int) (s' : Stream),
      Contract.top_up_stream s sender amount t = .ok s' →
      s'.receipt_owner = s.receipt_owner) ∧
    (∀ (s : Stream) (caller new_receiver : Address) (s' : Stream),
      Contract.transfer_receiver s caller new_receiver = .ok s' →
      s'.receipt_owner = s.receipt_owner) := by
  refine ⟨?_, ?_, ?_, ?_, ?_, ?_, ?_, ?_⟩
  · intro sender receiver token total st en ms ct sb va now s r h
    obtain ⟨h1, h2, -⟩ := create_ok_shape sender receiver token total st en ms ct sb va
      now s r h
    exact ⟨h2.trans h1.symm, h1⟩
  · intro receipt s from_addr to_addr z h
    obtain ⟨h1, h2, -⟩ := transfer_receipt_ok_shape receipt s from_addr to_addr z h
    rw [h1, h2]
  · intro receipt s caller t oracle_reply vs vo res h
    obtain ⟨h1, -⟩ := withdraw_ok_shape receipt s caller t oracle_reply vs vo res h
    rw [h1]
  · intro receipt s caller t vs vo res h
    obtain ⟨h1, -⟩ := cancel_ok_shape receipt s caller t vs vo res h
    rw [h1]
  · intro s caller t s' h
    obtain ⟨h1, h2, -⟩ := pause_ok_shape s caller t s' h
    cases hp : s.is_paused with
    | true => rw [h1 hp]
    | false => rw [h2 hp]
  · intro s caller t s' h
    obtain ⟨h1, h2, -⟩ := unpause_ok_shape s caller t s' h
    cases hp : s.is_paused with
    | true => rw [h2 hp]
    | false => rw [h1 hp]
  · intro s sender amount t s' h
    obtain ⟨h1, -⟩ := top_up_ok_shape s sender amount t s' h
    rw [h1]
  · intro s caller new_receiver s' h
    obtain ⟨h1, -⟩ := transfer_receiver_ok_shape s caller new_receiver s' h
    rw [h1]

/-- C10 witness: creating a concrete stream yields a receipt whose owner
matches the stream's `receipt_owner` (= the receiver 20), and a concrete
receipt transfer keeps both fields equal (both become 21). -/
theorem claim_C10_witness :
    (linReceipt.owner = linStream.receipt_owner ∧ linStream.receipt_owner = 20) ∧
    ({ linReceipt with owner := 21 } : StreamReceipt).owner =
      ({ linStream with receipt_owner := 21 } : Stream).receipt_owner :=
  ⟨claim_C10_receipt_owner_in_sync.1 10 20 30 1000 0 100 [] .Linear false none 0
      linStream linReceipt rfl,
    claim_C10_receipt_owner_in_sync.2.1 linReceipt linStream 20 21
      ⟨{ linReceipt with owner := 21 }, { linStream with receipt_owner := 21 }⟩ rfl⟩

/-- `linStream` after a successful withdraw at `t = 50` (500 unlocked,
`withdrawn_amount` becomes 500, the `withdrawn` field stays 0). -/
def linStreamAfter50 : Stream := { linStream with withdrawn_amount := 500 }

/-- `linStreamAfter50` after the cancel at `t = 50` writes the `withdrawn`
field. -/
def linStreamCancelled : Stream :=
  { linStreamAfter50 with cancelled := true, withdrawn := 500 }

/-- C1 (code-bug evidence): withdraw at `t = 50` pays 500 and records it in
`withdrawn_amount`; the subsequent cancel at the same instant computes
`to_receiver = unlocked - withdrawn` from the distinct, still-zero
`withdrawn` field, so it pays the receiver the full 500 again and
`to_receiver + to_sender + withdrawn_amount(before) = 1500 ≠ 1000 =
total_amount`: the conservation the claim states fails on the code. -/
theorem claim_C1_cancel_double_pays :
    Contract.withdraw linReceipt linStream 20 50 (0, 0) 0 true =
      .ok ⟨linStreamAfter50, 500, 20, none⟩ ∧
    Contract.cancel linReceipt linStreamAfter50 10 50 0 true =
      .ok ⟨linStreamCancelled, 500, 500, 20⟩ ∧
    linStreamAfter50.withdrawn_amount = 500 ∧
    linStreamAfter50.total_amount = 1000 ∧
    ¬ ((500 : Int) + 500 + linStreamAfter50.withdrawn_amount =
        linStreamAfter50.total_amount) :=
  ⟨rfl, rfl, rfl, rfl, by decide⟩

/-- A USD-pegged stream: 1000 USD over `[0, 100]`, funded at price `1.0`
(7 decimals), so `total_amount` (the funded tokens) is 1000; accepted
price band is `[0.4, 2.0]`. -/
def usdStream : Stream :=
  { linStream with
    is_usd_pegged := true, usd_amount := 1000,
    price_min := 4000000, price_max := 20000000, oracle_max_staleness := 100 }

/-- C2 (counterexample): on the USD-pegged stream, a withdraw at `t = 99`
with the fresh, in-bounds oracle price `0.5` succeeds and sets
`withdrawn_amount` to 1980, which exceeds `total_amount = 1000` (and the
token-space unlocked amount 990): the invariant
`withdrawn_amount ≤ unlocked(now) ≤ total_amount` fails on a USD-pegged
stream at an oracle price the bounds check accepts. -/
theorem claim_C2_counterexample :
    Contract.withdraw linReceipt usdStream 20 99 (5000000, 99) 0 true =
      .ok ⟨{ usdStream with withdrawn_amount := 1980 }, 1980, 20, none⟩ ∧
    usdStream.total_amount = 1000 ∧
    usdStream.price_min ≤ 5000000 ∧ (5000000 : Int) ≤ usdStream.price_max ∧
    Contract.calculate_unlocked usdStream 99 = 990 ∧
    ¬ (({ usdStream with withdrawn_amount := 1980 } : Stream).withdrawn_amount ≤
        ({ usdStream with withdrawn_amount := 1980 } : Stream).total_amount) :=
  ⟨rfl, rfl, by decide, by decide, rfl, by decide⟩

/-- `calculate_unlocked` does not read `withdrawn_amount`. -/
theorem calculate_unlocked_wa_irrel (s : Stream) (x t : Int) :
    Contract.calculate_unlocked { s with withdrawn_amount := x } t =
      Contract.calculate_unlocked s t := rfl

/-- C2 (amended): on a non-USD-pegged stream, every successful withdraw
leaves `0 ≤ withdrawn_amount ≤ unlocked(now') ≤ total_amount` for every
later time `now'` (no intervening operations); for USD-pegged streams the
bound can fail once the accepted oracle price moves
(`claim_C2_counterexample`). -/
theorem claim_C2_amended_withdraw_invariant (receipt : StreamReceipt) (s : Stream)
    (caller : Address) (t t' : Int) (oracle_reply : Int × Int) (vs : Int) (vo : Bool)
    (res : Contract.WithdrawOk) (husd : s.is_usd_pegged = false)
    (hT : 0 ≤ s.total_amount) (hse : s.start_time < s.end_time)
    (htpd : 0 ≤ s.total_paused_duration)
    (h : Contract.withdraw receipt s caller t oracle_reply vs vo = .ok res)
    (ht' : t ≤ t') :
    0 ≤ res.stream.withdrawn_amount ∧
    res.stream.withdrawn_amount ≤ Contract.calculate_unlocked res.stream t' ∧
    Contract.calculate_unlocked res.stream t' ≤ res.stream.total_amount := by
  obtain ⟨hs, -, -, -, -, -, hpos, hamt⟩ :=
    withdraw_ok_shape receipt s caller t oracle_reply vs vo res h
  have hamt' := hamt husd
  have hwa : res.stream.withdrawn_amount = Contract.calculate_unlocked s t := by
    rw [hs]
    dsimp only
    omega
  have htot : res.stream.total_amount = s.total_amount := by rw [hs]
  have hcu : Contract.calculate_unlocked res.stream t' =
      Contract.calculate_unlocked s t' := by
    rw [hs]
    exact calculate_unlocked_wa_irrel s (s.withdrawn_amount + res.amount) t'
  have hd : 0 < streamDuration s := by unfold streamDuration; omega
  have hb := calculate_unlocked_bounds s t hT hd htpd
  have hb' := calculate_unlocked_bounds s t' hT hd htpd
  have hmono := calculate_unlocked_mono s hT hd htpd ht'
  refine ⟨?_, ?_, ?_⟩
  · rw [hwa]
    exact hb.1
  · rw [hwa, hcu]
    exact hmono
  · rw [hcu, htot]
    exact hb'.2

/-- C2 witness: the amended theorem applied to `linStream`, withdrawing at
`t = 50` and checking the invariant at the later time 70. -/
theorem claim_C2_witness :
    0 ≤ linStreamAfter50.withdrawn_amount ∧
    linStreamAfter50.withdrawn_amount ≤ Contract.calculate_unlocked linStreamAfter50 70 ∧
    Contract.calculate_unlocked linStreamAfter50 70 ≤ linStreamAfter50.total_amount :=
  claim_C2_amended_withdraw_invariant linReceipt linStream 20 50 70 (0, 0) 0 true
    ⟨linStreamAfter50, 500, 20, none⟩ rfl (by decide) (by decide) (by decide) rfl
    (by decide)

/-- The receipt of `linStream` after being transferred to address 21. -/
def movedReceipt : StreamReceipt := { stream_id := 0, owner := 21, minted_at := 0 }

/-- `linStream` with its receipt owner updated to 21. -/
def movedStream : Stream := { linStream with receipt_owner := 21 }

/-- C3 (counterexample): after the receipt moves to address 21, a withdraw
authorized by the receipt owner 21 succeeds — but the token transfer goes
to address 20, the stream's `receiver` field, not to the current receipt
owner: the claim's destination is wrong on the code. -/
theorem claim_C3_counterexample :
    Contract.transfer_receipt linReceipt linStream 20 21 =
      .ok ⟨movedReceipt, movedStream⟩ ∧
    Contract.withdraw movedReceipt movedStream 21 50 (0, 0) 0 true =
      .ok ⟨{ movedStream with withdrawn_amount := 500 }, 500, 20, none⟩ ∧
    movedReceipt.owner = 21 ∧ movedStream.receiver = 20 ∧
    ¬ ((20 : Address) = movedReceipt.owner) :=
  ⟨rfl, rfl, rfl, rfl, by decide⟩

/-- C3 (amended): every successful withdraw increments `withdrawn_amount`
by exactly the withdrawn amount and, in the same atomic step, directs the
token transfer of that amount to the stream's `receiver` field — not to
the current receipt owner, who only authorizes the call. -/
theorem claim_C3_amended_withdraw_increment_and_recipient (receipt : StreamReceipt)
    (s : Stream) (caller : Address) (t : Int) (oracle_reply : Int × Int) (vs : Int)
    (vo : Bool) (res : Contract.WithdrawOk)
    (h : Contract.withdraw receipt s caller t oracle_reply vs vo = .ok res) :
    res.stream.withdrawn_amount = s.withdrawn_amount + res.amount ∧ 0 < res.amount ∧
    res.transfer_to = s.receiver ∧ receipt.owner = caller := by
  obtain ⟨hs, htr, hauth, -, -, -, hpos, -⟩ :=
    withdraw_ok_shape receipt s caller t oracle_reply vs vo res h
  refine ⟨?_, hpos, htr, hauth⟩
  rw [hs]

/-- C3 witness: the amended theorem on the moved-receipt scenario — the
withdraw by owner 21 increments `withdrawn_amount` by 500 and pays the
`receiver` field (20). -/
theorem claim_C3_witness :
    ({ movedStream with withdrawn_amount := 500 } : Stream).withdrawn_amount =
      movedStream.withdrawn_amount + 500 ∧
    (0 : Int) < 500 ∧ (20 : Address) = movedStream.receiver ∧
    movedReceipt.owner = 21 :=
  claim_C3_amended_withdraw_increment_and_recipient movedReceipt movedStream 21 50
    (0, 0) 0 true ⟨{ movedStream with withdrawn_amount := 500 }, 500, 20, none⟩ rfl

/-- An exponential stream whose quadratic computation overflows while its
linear fallback stays inside `i128`: `2^100` tokens over `[0, 2^20]`; at
`t = 2^15` the quadratic numerator is `2^130` (overflow) but the linear
numerator is only `2^115`. -/
def expOverflowStream : Stream :=
  { linStream with
    total_amount := 2 ^ 100, end_time := 2 ^ 20, curve_type := .Exponential }

/-- C4 (counterexample): at `t = 2^15` the exponential computation signals
overflow (`total * elapsed²  = 2^130` leaves `i128`), yet
`calculate_unlocked` — and hence a withdraw — silently substitutes the
linear value `2^95` for the exponential result (whose exact value would be
`2^90`): the enclosing operation does not fail and does use a different
value.  Every value on this trace is within `i128` (the linear numerator
is `2^115 ≤ i128Max`), so the trace is trap-free in the source. -/
theorem claim_C4_counterexample :
    Math.calculate_exponential_unlocked (2 ^ 100) 0 (2 ^ 20) (2 ^ 15) = none ∧
    (2 ^ 100 * 2 ^ 15 : Int) ≤ i128Max ∧
    Contract.calculate_unlocked expOverflowStream (2 ^ 15) = 2 ^ 95 ∧
    Contract.withdraw linReceipt expOverflowStream 20 (2 ^ 15) (0, 0) 0 true =
      .ok ⟨{ expOverflowStream with withdrawn_amount := 2 ^ 95 }, 2 ^ 95, 20, none⟩ ∧
    rdiv (2 ^ 100 * (2 ^ 15 * 2 ^ 15)) (2 ^ 20 * 2 ^ 20) = 2 ^ 90 ∧
    ¬ ((2 ^ 95 : Int) = 2 ^ 90) :=
  ⟨rfl, by decide, rfl, rfl, rfl, by decide⟩

/-- C4 (amended): inside the unlock window the exponential helper signals
`i128` overflow of either squaring or of the multiplication by the total
as a distinct failure (`Err`), and when it succeeds it returns the exact
quadratic floor — never a wrapped value; but on that failure the enclosing
`calculate_unlocked` (used by withdraw) silently falls back to the linear
curve value instead of aborting (stated under the side condition that the
linear fallback's own numerator `total * effective_elapsed` stays inside
`i128`, i.e. on the trap-free executions of the source). -/
theorem claim_C4_amended_overflow_signaled_then_linear_fallback :
    (∀ T st en ct : Int, st ≤ ct → ct < en → 0 ≤ T →
      (Math.calculate_exponential_unlocked T st en ct = none ↔
        (i128Max < (ct - st) * (ct - st) ∨ i128Max < (en - st) * (en - st) ∨
          i128Max < T * ((ct - st) * (ct - st)))) ∧
      (∀ v, Math.calculate_exponential_unlocked T st en ct = some v →
        v = rdiv (T * ((ct - st) * (ct - st))) ((en - st) * (en - st)))) ∧
    (∀ (s : Stream) (t : Int), s.curve_type = .Exponential → s.milestones = [] →
      0 ≤ s.total_amount →
      s.total_amount * effectiveElapsed s t ≤ i128Max →
      ¬ t ≤ s.start_time →
      ¬ s.end_time + s.total_paused_duration ≤ effectiveTime s t →
      ¬ effectiveElapsed s t ≤ 0 →
      Math.calculate_exponential_unlocked s.total_amount s.start_time s.end_time
        (s.start_time + effectiveElapsed s t) = none →
      Contract.calculate_unlocked s t = linearBase s (effectiveElapsed s t)) := by
  constructor
  · intro T st en ct h1 h2 hT
    have hmin : (i128Min : Int) < 0 := by unfold i128Min; norm_num
    have hce : (0 : Int) ≤ ct - st := by omega
    have hde : (0 : Int) ≤ en - st := by omega
    have hsq1 : (0 : Int) ≤ (ct - st) * (ct - st) := mul_self_nonneg _
    have hsq2 : (0 : Int) ≤ (en - st) * (en - st) := mul_self_nonneg _
    have hsq3 : (0 : Int) ≤ T * ((ct - st) * (ct - st)) := mul_nonneg hT hsq1
    rw [exp_mid T st en ct h1 h2]
    constructor
    · split_ifs with hov
      · constructor
        · intro _
          unfold expOverflow at hov
          omega
        · intro _
          rfl
      · constructor
        · intro hx
          cases hx
        · intro hd
          exfalso
          unfold expOverflow at hov
          omega
    · intro v hv
      split_ifs at hv with hov <;> cases hv <;> rfl
  · intro s t hc hm hT hrange h1 h2 h3 hov
    rw [calculate_unlocked_eq, if_neg h1, if_neg h2, if_neg h3,
      if_pos (by simp [hm])]
    unfold baseCurve
    rw [hc]
    dsimp only
    rw [hov]
    rfl

/-- C4 witness: the amended theorem at the concrete overflowing stream —
the helper signals `none` and `calculate_unlocked` returns the linear
fallback value. -/
theorem claim_C4_witness :
    Math.calculate_exponential_unlocked (2 ^ 100) 0 (2 ^ 20) (2 ^ 15) = none ∧
    Contract.calculate_unlocked expOverflowStream (2 ^ 15) =
      linearBase expOverflowStream (effectiveElapsed expOverflowStream (2 ^ 15)) := by
  have h := claim_C4_amended_overflow_signaled_then_linear_fallback
  have hnone : Math.calculate_exponential_unlocked (2 ^ 100) 0 (2 ^ 20) (2 ^ 15) =
      none :=
    ((h.1 (2 ^ 100) 0 (2 ^ 20) (2 ^ 15) (by decide) (by decide) (by decide)).1).mpr
      (by decide)
  exact ⟨hnone, h.2 expOverflowStream (2 ^ 15) rfl rfl (by decide) (by decide)
    (by decide) (by decide) (by decide) hnone⟩

/-- A stream whose flow rate floors to zero: 50 tokens over `[0, 100]`. -/
def slowStream : Stream := { linStream with total_amount := 50 }

/-- C5 (counterexample): on `slowStream` the flow rate
`floor(50 / 100) = 0`, and a top-up of 10 at `t = 50` does not succeed
with an unchanged schedule as the claim states: the division
`amount / flow_rate` is a division by zero, which panics (the call
aborts). -/
theorem claim_C5_counterexample :
    rdiv slowStream.total_amount (slowStream.end_time - slowStream.start_time) = 0 ∧
    (0 : Int) < 10 ∧
    Contract.top_up_stream slowStream 10 10 50 = .panicked :=
  ⟨rfl, by decide, rfl⟩

/-- C5 (amended): a successful top-up by the sender with `extra > 0` on a
non-cancelled stream before `end_time` adds `extra` to `total_amount` and
extends `end_time` by `floor(extra / flow_rate)` with
`flow_rate = floor(pre-top-up total / (end - start))` (stated under the
in-`u64`-range side condition of the extra duration); but when the flow
rate floors to 0 the call panics on a division by zero instead of being
accepted with no schedule extension. -/
theorem claim_C5_amended_top_up (s : Stream) (sender : Address) (extra t : Int)
    (s' : Stream) :
    (Contract.top_up_stream s sender extra t = .ok s' →
      0 ≤ rdiv extra (rdiv s.total_amount (max (s.end_time - s.start_time) 0)) →
      rdiv extra (rdiv s.total_amount (max (s.end_time - s.start_time) 0)) < 2 ^ 64 →
      s'.total_amount = s.total_amount + extra ∧
      s'.end_time = s.end_time +
        rdiv extra (rdiv s.total_amount (max (s.end_time - s.start_time) 0))) ∧
    (0 < extra → s.sender = sender → s.cancelled = false → t < s.end_time →
      0 < s.end_time - s.start_time →
      rdiv s.total_amount (s.end_time - s.start_time) = 0 →
      Contract.top_up_stream s sender extra t = .panicked) := by
  constructor
  · intro h had0 hadlt
    obtain ⟨hs, -, -, -, -, -⟩ := top_up_ok_shape s sender extra t s' h
    have hmod : rdiv extra (rdiv s.total_amount (max (s.end_time - s.start_time) 0)) %
        2 ^ 64 = rdiv extra (rdiv s.total_amount (max (s.end_time - s.start_time) 0)) :=
      Int.emod_eq_of_lt had0 hadlt
    rw [hs]
    dsimp only
    rw [hmod]
    exact ⟨rfl, rfl⟩
  · intro hx hsend hcanc htend hdur hfr
    have hmax : max (s.end_time - s.start_time) 0 = s.end_time - s.start_time :=
      max_eq_left (by omega)
    unfold Contract.top_up_stream
    rw [if_neg (by omega), if_neg (by rw [hsend]; exact fun hne => hne rfl),
      if_neg (by rw [hcanc]; exact Bool.false_ne_true), if_neg (by omega)]
    dsimp only
    rw [hmax, if_neg (by omega), if_pos hfr]

/-- The result of topping `linStream` up by 500 at `t = 50`:
`flow_rate = 10`, so `end_time` extends by 50. -/
def toppedStream : Stream :=
  { linStream with total_amount := 1500, end_time := 150 }

/-- C5 witness: the amended theorem instantiated on `linStream` with a
top-up of 500 at `t = 50`. -/
theorem claim_C5_witness :
    toppedStream.total_amount = linStream.total_amount + 500 ∧
    toppedStream.end_time = linStream.end_time +
      rdiv 500 (rdiv linStream.total_amount
        (max (linStream.end_time - linStream.start_time) 0)) :=
  (claim_C5_amended_top_up linStream 10 500 50 toppedStream).1 rfl (by decide) (by decide)

/-! ## Verification layer: record-update facts for pause and unpause -/

theorem effectiveTime_paused (s : Stream) (tp t : Int) :
    effectiveTime { s with is_paused := true, paused_time := tp } t = tp := rfl

theorem effectiveElapsed_paused (s : Stream) (tp t : Int) :
    effectiveElapsed { s with is_paused := true, paused_time := tp } t =
      tp - s.start_time - s.total_paused_duration := rfl

theorem baseCurve_paused (s : Stream) (tp e : Int) :
    baseCurve { s with is_paused := true, paused_time := tp } e = baseCurve s e := rfl

theorem milestoneCap_paused (s : Stream) (tp eff : Int) :
    milestoneCap { s with is_paused := true, paused_time := tp } eff =
      milestoneCap s eff := rfl

theorem effectiveTime_unpaused (s : Stream) (D t : Int) :
    effectiveTime
      { s with total_paused_duration := D, is_paused := false, paused_time := 0 } t =
      t := rfl

theorem effectiveElapsed_unpaused (s : Stream) (D t : Int) :
    effectiveElapsed
      { s with total_paused_duration := D, is_paused := false, paused_time := 0 } t =
      t - s.start_time - D := rfl

theorem baseCurve_unpaused (s : Stream) (D e : Int) :
    baseCurve
      { s with total_paused_duration := D, is_paused := false, paused_time := 0 } e =
      baseCurve s e := rfl

theorem milestoneCap_unpaused (s : Stream) (D eff : Int) :
    milestoneCap
      { s with total_paused_duration := D, is_paused := false, paused_time := 0 } eff =
      milestoneCap s eff := rfl

theorem baseCurve_tpd0 (s : Stream) (e : Int) :
    baseCurve { s with total_paused_duration := 0 } e = baseCurve s e := rfl

theorem milestoneCap_tpd0 (s : Stream) (eff : Int) :
    milestoneCap { s with total_paused_duration := 0 } eff = milestoneCap s eff := rfl

theorem effectiveTime_tpd0 (s : Stream) (t : Int) (hp : s.is_paused = false) :
    effectiveTime { s with total_paused_duration := 0 } t = t := by
  unfold effectiveTime
  dsimp only
  rw [hp]
  rfl

theorem effectiveElapsed_tpd0 (s : Stream) (t : Int) (hp : s.is_paused = false) :
    effectiveElapsed { s with total_paused_duration := 0 } t = t - s.start_time := by
  unfold effectiveElapsed
  rw [effectiveTime_tpd0 s t hp]
  dsimp only
  ring

/-- C6 (amended): (a) once a stream is paused at time `tp`, its unlocked
amount at every time `now ≥ tp` during the pause equals the unlocked
amount at the moment of pausing, for every curve and milestone
configuration; (b) for milestone-free streams, at the instant of unpausing
the unlocked amount equals the frozen value — the stream resumes exactly
where it stopped; (c) a milestone-free unpaused stream's unlocked amount
equals that of the same stream with zero cumulative pause evaluated at
`now - cumulative_paused_duration` — the original schedule shifted by the
cumulative paused duration, with the end compared as
`end_time + cumulative_paused_duration`.  For streams with milestones,
(b) and (c) fail in the code (`claim_C6_counterexample`): milestone caps
are compared at absolute time, so the unlocked amount can jump upward at
the unpause instant. -/
theorem claim_C6_pause_freezes_then_shifts_schedule :
    (∀ (s : Stream) (caller : Address) (tp now : Int) (s' : Stream),
      s.is_paused = false → 0 ≤ s.total_paused_duration → s.start_time < s.end_time →
      Contract.pause_stream s caller tp = .ok s' → tp ≤ now →
      Contract.calculate_unlocked s' now = Contract.calculate_unlocked s tp) ∧
    (∀ (s : Stream) (caller : Address) (tu : Int) (s' : Stream),
      s.is_paused = true → s.milestones = [] → 0 ≤ s.total_paused_duration →
      s.paused_time ≤ tu →
      Contract.unpause_stream s caller tu = .ok s' →
      Contract.calculate_unlocked s' tu = Contract.calculate_unlocked s tu) ∧
    (∀ (s : Stream) (now : Int),
      s.is_paused = false → s.milestones = [] → 0 ≤ s.total_paused_duration →
      s.start_time < s.end_time →
      Contract.calculate_unlocked s now =
        Contract.calculate_unlocked { s with total_paused_duration := 0 }
          (now - s.total_paused_duration)) := by
  refine ⟨?_, ?_, ?_⟩
  · intro s caller tp now s' hp htpd hse hok hnow
    obtain ⟨-, h2, -, -⟩ := pause_ok_shape s caller tp s' hok
    rw [h2 hp]
    rw [calculate_unlocked_eq, calculate_unlocked_eq]
    dsimp only
    rw [effectiveTime_paused, effectiveElapsed_paused, baseCurve_paused, milestoneCap_paused]
    simp only [effectiveTime, effectiveElapsed, hp, Bool.false_eq_true, if_false]
    split_ifs <;> first | rfl | omega
  · intro s caller tu s' hp hm htpd htu hok
    obtain ⟨-, h2, -, -⟩ := unpause_ok_shape s caller tu s' hok
    rw [h2 hp]
    rw [calculate_unlocked_eq, calculate_unlocked_eq]
    dsimp only
    rw [effectiveTime_unpaused, effectiveElapsed_unpaused, baseCurve_unpaused,
      milestoneCap_unpaused]
    simp only [effectiveTime, effectiveElapsed, hp, if_true, hm, List.isEmpty_nil]
    have harg : tu - s.start_time - (s.total_paused_duration + (tu - s.paused_time)) =
        s.paused_time - s.start_time - s.total_paused_duration := by ring
    rw [harg]
    split_ifs <;> first | rfl | omega
  · intro s now hp hm htpd hse
    rw [calculate_unlocked_eq, calculate_unlocked_eq]
    dsimp only
    rw [baseCurve_tpd0, milestoneCap_tpd0,
      effectiveTime_tpd0 s (now - s.total_paused_duration) hp,
      effectiveElapsed_tpd0 s (now - s.total_paused_duration) hp]
    simp only [effectiveTime, effectiveElapsed, hp, Bool.false_eq_true, if_false, hm,
      List.isEmpty_nil]
    have harg : now - s.total_paused_duration - s.start_time =
        now - s.start_time - s.total_paused_duration := by ring
    rw [harg]
    split_ifs <;> first | rfl | omega

/-- The spec's pause example: 1000 tokens over `[100, 300]`. -/
def pauseStream : Stream := { linStream with start_time := 100, end_time := 300 }

/-- `pauseStream` paused at `t = 150` (where 250 is unlocked). -/
def pausedAt150 : Stream :=
  { pauseStream with is_paused := true, paused_time := 150 }

/-- C6 witness: part (a) on the spec's own example — pausing at `t = 150`
freezes the unlocked amount at 250, still the value at `t = 200`. -/
theorem claim_C6_witness :
    Contract.calculate_unlocked pausedAt150 200 =
      Contract.calculate_unlocked pauseStream 150 ∧
    Contract.calculate_unlocked pauseStream 150 = 250 :=
  ⟨claim_C6_pause_freezes_then_shifts_schedule.1 pauseStream 10 150 200 pausedAt150 rfl
      (by decide) (by decide) rfl (by decide), rfl⟩

/-- The spec's milestone schedule: 1000 tokens, linear over `[0, 360]`,
milestones (90, 25%), (180, 50%), (270, 75%), (360, 100%). -/
def msStream : Stream :=
  { linStream with
    end_time := 360, milestones := [⟨90, 25⟩, ⟨180, 50⟩, ⟨270, 75⟩, ⟨360, 100⟩] }

/-- `msStream` paused at `t = 100` (unlocked frozen at
`min(277, cap 250) = 250`). -/
def msPausedAt100 : Stream := { msStream with is_paused := true, paused_time := 100 }

/-- `msPausedAt100` after the unpause at `t = 200` accumulates 100 of
paused duration. -/
def msResumedAt200 : Stream :=
  { msPausedAt100 with
    total_paused_duration := 100, is_paused := false, paused_time := 0 }

/-- C6 (counterexample): on the milestone stream the claim fails — while
paused the unlocked amount is frozen at 250, but at the very instant of
unpausing (`t = 200`) it jumps to 277, because the milestone cap is
compared at absolute time (milestone (180, 50%) has passed during the
pause) while the claim's shifted schedule would still cap it at 250: the
stream does not resume exactly where it stopped. -/
theorem claim_C6_counterexample :
    Contract.calculate_unlocked msStream 100 = 250 ∧
    Contract.calculate_unlocked msPausedAt100 200 = 250 ∧
    Contract.unpause_stream msPausedAt100 10 200 = .ok msResumedAt200 ∧
    Contract.calculate_unlocked msResumedAt200 200 = 277 ∧
    ¬ ((277 : Int) = 250) :=
  ⟨rfl, rfl, rfl, rfl, by decide⟩

end StellarStream
